import Mathlib

/-
  Verification of the near_bmi contract (src/lib.rs).

  Embedding choices:
  * The Rust f32 values are modelled by the type F below: an exact rational
    payload plus the IEEE special values +inf, -inf and NaN.  The finite
    arithmetic is exact (no rounding); every numeric fact proved here is far
    from the f32 representation error of the literals involved.
  * HashMap String V is modelled by an association list with replace-on-insert
    and remove-all semantics, which agree with the finite-map semantics of
    HashMap on the operation sequences the contract performs.
  * The host-supplied signer identity (env::signer_account_id) is threaded as
    an explicit parameter.
  * Logging is advisory output, not state, and is omitted; what is kept of the
    classification match is which arm runs, recorded as a Category value.
-/

namespace NearBmi

/-- Model of an f32 value: exact rational, or an IEEE special value. -/
inductive F where
  | fin (q : ℚ)
  | inf
  | ninf
  | nan
deriving DecidableEq

/-- Rust f32::trunc / `as` truncation toward zero, on rationals. -/
def truncQ (q : ℚ) : ℤ := if 0 ≤ q then ⌊q⌋ else ⌈q⌉

/-- Multiplication by 100.0 (`bmi * 100f32`); exact on finite values,
IEEE propagation on the special values. -/
def F.mul100 : F → F
  | fin q => fin (q * 100)
  | inf => inf
  | ninf => ninf
  | nan => nan

/-- f32::trunc; the special values are fixed points. -/
def F.ftrunc : F → F
  | fin q => fin ((truncQ q : ℤ) : ℚ)
  | inf => inf
  | ninf => ninf
  | nan => nan

/-- Division by 100.0; exact on finite values. -/
def F.div100 : F → F
  | fin q => fin (q / 100)
  | inf => inf
  | ninf => ninf
  | nan => nan

/-- Saturation of an integer to the i32 range. -/
def i32sat (t : ℤ) : ℤ :=
  if t > 2147483647 then 2147483647
  else if t < -2147483648 then -2147483648
  else t

/-- Rust `as i32` on an f32: truncate toward zero, saturate at the i32
bounds, NaN goes to 0. -/
def F.toI32 : F → ℤ
  | fin q => i32sat (truncQ q)
  | inf => 2147483647
  | ninf => -2147483648
  | nan => 0

/-- struct AppUser \x7b id: u32, uid: AccountId, u_name: Option<String> \x7d -/
structure AppUser where
  id : Nat
  uid : String
  u_name : Option String
deriving DecidableEq

/-- struct Data \x7b uid: String, bmi: f32 \x7d -/
structure Data where
  uid : String
  bmi : F
deriving DecidableEq

/-- struct DataPermission(Option<bool>) -/
structure DataPermission where
  v : Option Bool
deriving DecidableEq

/-- impl Default for DataPermission: Self(Some(true)). -/
def DataPermission.default : DataPermission := ⟨some true⟩

/-- HashMap lookup (first entry with the key). -/
def mget {α : Type} (k : String) : List (String × α) → Option α
  | [] => none
  | (k1, v) :: rest => if k1 = k then some v else mget k rest

/-- HashMap insert: replace the value in place if the key is present,
append otherwise. -/
def minsert {α : Type} (k : String) (v : α) : List (String × α) → List (String × α)
  | [] => [(k, v)]
  | (k1, v1) :: rest => if k1 = k then (k, v) :: rest else (k1, v1) :: minsert k v rest

/-- HashMap remove: drop the entries with the key. -/
def mremove {α : Type} (k : String) : List (String × α) → List (String × α)
  | [] => []
  | (k1, v1) :: rest => if k1 = k then mremove k rest else (k1, v1) :: mremove k rest

/-- struct Contract \x7b uid, app_user, data \x7d -/
structure Contract where
  uid : String
  app_user : List (String × AppUser)
  data : List (String × Data)
deriving DecidableEq

/-- Contract::new(uid): both maps empty. -/
def Contract.new (uid : String) : Contract := ⟨uid, [], []⟩

/-- The four arms of the classification match in Contract::compute, in source
order.  (The log text of the second and third arm is mislabeled in the source;
the arm that runs is what is modelled.) -/
inductive Category where
  | Underweight
  | Normal
  | Overweight
  | Obese
deriving DecidableEq

/-- The classification match of Contract::compute on the raw bmi:
bmi < 18.5, then (18.5..=24.9).contains, then (25.0..=29.9).contains,
then the default arm.  On NaN every comparison is false, so the default
arm runs; -inf satisfies bmi < 18.5. -/
def classify : F → Category
  | F.fin q =>
      if q < 18.5 then Category.Underweight
      else if 18.5 ≤ q ∧ q ≤ 24.9 then Category.Normal
      else if 25 ≤ q ∧ q ≤ 29.9 then Category.Overweight
      else Category.Obese
  | F.inf => Category.Obese
  | F.ninf => Category.Underweight
  | F.nan => Category.Obese

/-- The raw bmi of Contract::compute: height = height / 100.0;
bmi = weight as f32 / height.powi(2).  An f32 division of a positive
numerator by zero is +inf and 0/0 is NaN; the numerator weight is a u32,
hence never negative. -/
def rawBMI (weight : Nat) (height : ℚ) : F :=
  if (height / 100) ^ 2 = 0 then (if weight = 0 then F.nan else F.inf)
  else F.fin ((weight : ℚ) / (height / 100) ^ 2)

/-- n_bmi = ((bmi * 100f32).trunc() / 100.0) as i32. -/
def nBMI (bmi : F) : ℤ := F.toI32 (F.div100 (F.ftrunc (F.mul100 bmi)))

/-- Contract::compute.  Returns (n_bmi, the classification arm that ran, the
new state).  The storage branch: on Some(true), insert only when no Data is
present for the signer (write-once); on Some(false) and None the state is
untouched. -/
def compute (signer : String) (weight : Nat) (height : ℚ)
    (permit : DataPermission) (st : Contract) : ℤ × Category × Contract :=
  let u_name := signer
  let bmi := rawBMI weight height
  let n_bmi := nBMI bmi
  let cat := classify bmi
  let st1 :=
    match permit.v with
    | some b =>
        if b then
          match mget u_name st.data with
          | some _ => st
          | none => { st with data := minsert u_name ⟨signer, bmi⟩ st.data }
        else st
    | none => st
  (n_bmi, cat, st1)

/-- Contract::set_user: uid = app_user.len(); insert AppUser::new_user only
when the signer has no profile yet. -/
def set_user (signer : String) (u_name : String) (st : Contract) : Contract :=
  let uid := st.app_user.length
  match mget signer st.app_user with
  | some _ => st
  | none => { st with app_user := minsert signer ⟨uid, signer, some u_name⟩ st.app_user }

/-- Contract::delete_data: on Some(true) remove the entry under the uid
argument; on Some(false) and None do nothing. -/
def delete_data (uid : String) (permit : DataPermission) (st : Contract) : Contract :=
  match permit.v with
  | some b => if b then { st with data := mremove uid st.data } else st
  | none => st

/-- A concrete stored measurement, used in concrete scenarios. -/
def dA : Data := ⟨"a", F.fin 20⟩

/-- A concrete contract state in which identity "a" has a measurement. -/
def stA : Contract := ⟨"o", [], [("a", dA)]⟩

/-- A concrete contract state in which identity "alice" has a measurement. -/
def stC : Contract := ⟨"o", [], [("alice", ⟨"alice", F.fin 32⟩)]⟩

/-! Helper lemmas about the map model. -/

theorem mget_minsert_self {α : Type} (k : String) (v : α) (m : List (String × α)) :
    mget k (minsert k v m) = some v := by
  induction m with
  | nil => simp [minsert, mget]
  | cons p rest ih =>
    obtain ⟨k1, v1⟩ := p
    by_cases h : k1 = k <;> simp [minsert, mget, h, ih]

theorem mremove_absent {α : Type} (k : String) (m : List (String × α))
    (h : mget k m = none) : mremove k m = m := by
  induction m with
  | nil => simp [mremove]
  | cons p rest ih =>
    obtain ⟨k1, v1⟩ := p
    by_cases hk : k1 = k
    · simp [mget, hk] at h
    · simp [mget, hk] at h
      simp [mremove, hk, ih h]

theorem mget_mremove_self {α : Type} (k : String) (m : List (String × α)) :
    mget k (mremove k m) = none := by
  induction m with
  | nil => simp [mremove, mget]
  | cons p rest ih =>
    obtain ⟨k1, v1⟩ := p
    by_cases hk : k1 = k <;> simp [mremove, mget, hk, ih]

theorem mget_mremove_ne {α : Type} (k j : String) (m : List (String × α))
    (h : k ≠ j) : mget k (mremove j m) = mget k m := by
  induction m with
  | nil => simp [mremove]
  | cons p rest ih =>
    obtain ⟨k1, v1⟩ := p
    by_cases hj : k1 = j
    · subst hj
      simp [mremove, mget, Ne.symm h, ih]
    · by_cases hk : k1 = k <;> simp [mremove, mget, hj, hk, ih, h]

/-! Claim theorems. -/

/-- C1: with consent denied (Some(false)) or unspecified (None), neither
compute nor delete_data changes the measurement map, for every state, every
weight and height, and every identity. -/
theorem consent_denied_or_unspecified_no_mutation
    (st : Contract) (signer uid : String) (w : Nat) (h : ℚ) :
    (compute signer w h ⟨some false⟩ st).2.2.data = st.data ∧
    (compute signer w h ⟨none⟩ st).2.2.data = st.data ∧
    (delete_data uid ⟨some false⟩ st).data = st.data ∧
    (delete_data uid ⟨none⟩ st).data = st.data := by
  refine ⟨rfl, rfl, rfl, rfl⟩

/-- C5: compute on weight=92, height=136 returns the rounded value 49 and the
classification arm that runs is the default (Obese) one, for every signer,
permission and state. -/
theorem compute_92_136_is_49_obese
    (signer : String) (permit : DataPermission) (st : Contract) :
    (compute signer 92 136 permit st).1 = 49 ∧
    (compute signer 92 136 permit st).2.1 = Category.Obese := by
  have hraw : rawBMI 92 136 = F.fin (14375 / 289) := by
    rw [rawBMI]
    norm_num
  constructor
  · show nBMI (rawBMI 92 136) = 49
    rw [hraw, nBMI]
    show F.toI32 (F.div100 (F.ftrunc (F.fin (14375 / 289 * 100)))) = 49
    have h1 : truncQ (14375 / 289 * 100) = 4974 := by
      rw [truncQ]
      norm_num [Int.floor_eq_iff]
    rw [F.ftrunc, h1]
    show F.toI32 (F.fin ((4974 : ℚ) / 100)) = 49
    have h2 : truncQ ((4974 : ℚ) / 100) = 49 := by
      rw [truncQ]
      norm_num [Int.floor_eq_iff]
    show i32sat (truncQ ((4974 : ℚ) / 100)) = 49
    rw [h2, i32sat]
    decide
  · show classify (rawBMI 92 136) = Category.Obese
    rw [hraw, classify]
    norm_num

/-- C3 counterexample: the raw bmi 399/16 = 24.9375 is below 30.0, yet the
classification selects the default (Obese) arm, because the value falls in the
gap between the Normal range (which closes at 24.9) and the Overweight range
(which opens at 25.0). -/
theorem classify_gap_counterexample :
    classify (F.fin (399 / 16)) = Category.Obese ∧ ¬ (30 : ℚ) ≤ 399 / 16 := by
  constructor
  · rw [classify]
    norm_num
  · norm_num

/-- C3 amended: the default (Obese) arm is selected on a finite raw bmi
exactly when it is at least 30.0 or lies in one of the uncovered gaps
(24.9, 25.0) and (29.9, 30.0). -/
theorem classify_default_iff (q : ℚ) :
    classify (F.fin q) = Category.Obese ↔
      30 ≤ q ∨ (24.9 < q ∧ q < 25) ∨ (29.9 < q ∧ q < 30) := by
  rw [classify]
  split_ifs with h1 h2 h3
  · constructor
    · intro hc
      exact absurd hc (by decide)
    · intro hd
      exfalso
      rcases hd with h | ⟨ha, hb⟩ | ⟨ha, hb⟩ <;> linarith
  · constructor
    · intro hc
      exact absurd hc (by decide)
    · intro hd
      exfalso
      rcases hd with h | ⟨ha, hb⟩ | ⟨ha, hb⟩ <;> linarith [h2.2]
  · constructor
    · intro hc
      exact absurd hc (by decide)
    · intro hd
      exfalso
      rcases hd with h | ⟨ha, hb⟩ | ⟨ha, hb⟩ <;> linarith [h3.1, h3.2]
  · constructor
    · intro _
      push_neg at h1 h2 h3
      have h24 : 24.9 < q := h2 h1
      by_cases h25 : q < 25
      · exact Or.inr (Or.inl ⟨h24, h25⟩)
      · push_neg at h25
        have h29 : 29.9 < q := h3 h25
        by_cases h30 : q < 30
        · exact Or.inr (Or.inr ⟨h29, h30⟩)
        · push_neg at h30
          exact Or.inl h30
    · intro _
      rfl

/-- C4 counterexample: at weight=1000000, height=1 the mathematical value
trunc(trunc(raw_bmi·100)/100) is 10^10, which exceeds the i32 range, so the
returned value is the saturated 2147483647 and not that integer. -/
theorem compute_return_saturates :
    (compute "a" 1000000 1 ⟨some true⟩ (Contract.new "o")).1 ≠
      truncQ (((truncQ (((1000000 : ℚ) / ((1 : ℚ) / 100) ^ 2) * 100) : ℤ) : ℚ) / 100) := by
  have hraw : rawBMI 1000000 1 = F.fin 10000000000 := by
    rw [rawBMI]
    norm_num
  have hlhs : (compute "a" 1000000 1 ⟨some true⟩ (Contract.new "o")).1 = 2147483647 := by
    show nBMI (rawBMI 1000000 1) = 2147483647
    rw [hraw, nBMI]
    show F.toI32 (F.div100 (F.ftrunc (F.fin (10000000000 * 100)))) = 2147483647
    have h1 : truncQ ((10000000000 : ℚ) * 100) = 1000000000000 := by
      rw [truncQ]
      norm_num [Int.floor_eq_iff]
    rw [F.ftrunc, h1]
    show i32sat (truncQ ((1000000000000 : ℚ) / 100)) = 2147483647
    have h2 : truncQ ((1000000000000 : ℚ) / 100) = 10000000000 := by
      rw [truncQ]
      norm_num [Int.floor_eq_iff]
    rw [h2, i32sat]
    norm_num
  have hrhs : truncQ (((truncQ (((1000000 : ℚ) / ((1 : ℚ) / 100) ^ 2) * 100) : ℤ) : ℚ) / 100) =
      10000000000 := by
    have h1 : truncQ (((1000000 : ℚ) / ((1 : ℚ) / 100) ^ 2) * 100) = 1000000000000 := by
      rw [truncQ]
      norm_num [Int.floor_eq_iff]
    rw [h1, truncQ]
    norm_num [Int.floor_eq_iff]
  rw [hlhs, hrhs]
  decide

/-- C4 amended: for positive weight and height, the raw bmi is exactly
w / (h/100)^2 and the returned value is trunc(trunc(raw_bmi·100)/100)
saturated to the i32 range. -/
theorem compute_formula (w : Nat) (h : ℚ) (_hw : 0 < w) (hh : 0 < h) :
    rawBMI w h = F.fin ((w : ℚ) / (h / 100) ^ 2) ∧
    ∀ (signer : String) (permit : DataPermission) (st : Contract),
      (compute signer w h permit st).1 =
        i32sat (truncQ (((truncQ (((w : ℚ) / (h / 100) ^ 2) * 100) : ℤ) : ℚ) / 100)) := by
  have hne : ((h : ℚ) / 100) ^ 2 ≠ 0 := by positivity
  have hraw : rawBMI w h = F.fin ((w : ℚ) / (h / 100) ^ 2) := by
    rw [rawBMI, if_neg hne]
  refine ⟨hraw, fun signer permit st => ?_⟩
  show nBMI (rawBMI w h) = _
  rw [hraw]
  rfl

/-- C9: at height 0 compute still totals: the raw bmi is NaN (weight 0) or
+inf (positive weight), the classification that runs is the default (Obese)
arm, and a concrete i32 value is returned (0 for NaN, the saturated
2147483647 for +inf). -/
theorem compute_height_zero (w : Nat) (signer : String)
    (permit : DataPermission) (st : Contract) :
    rawBMI w 0 = (if w = 0 then F.nan else F.inf) ∧
    (compute signer w 0 permit st).2.1 = Category.Obese ∧
    (compute signer w 0 permit st).1 = (if w = 0 then 0 else 2147483647) := by
  have hraw : rawBMI w 0 = (if w = 0 then F.nan else F.inf) := by
    rw [rawBMI]
    norm_num
  refine ⟨hraw, ?_, ?_⟩
  · show classify (rawBMI w 0) = Category.Obese
    rw [hraw]
    by_cases h0 : w = 0 <;> simp [h0, classify]
  · show nBMI (rawBMI w 0) = (if w = 0 then 0 else 2147483647)
    rw [hraw]
    by_cases h0 : w = 0 <;> simp [h0, nBMI, F.mul100, F.ftrunc, F.div100, F.toI32]

/-- C2: write-once. With granted consent, a compute call for a signer that
already has a stored measurement leaves the measurement map exactly as it
was; only when no measurement is stored yet does the call insert one. -/
theorem compute_write_once (st : Contract) (signer : String) (w : Nat) (h : ℚ) :
    (∀ d, mget signer st.data = some d →
      (compute signer w h ⟨some true⟩ st).2.2.data = st.data) ∧
    (mget signer st.data = none →
      (compute signer w h ⟨some true⟩ st).2.2.data =
        minsert signer ⟨signer, rawBMI w h⟩ st.data) := by
  constructor
  · intro d hd
    simp [compute, hd]
  · intro hn
    simp [compute, hn]

/-- C2 witness: on the concrete state stA, where "a" already has the
measurement dA, a granted compute call leaves the measurement map unchanged. -/
theorem compute_write_once_witness :
    (compute "a" 70 175 ⟨some true⟩ stA).2.2.data = stA.data :=
  (compute_write_once stA "a" 70 175).1 dA rfl

/-- A set_user call for a signer that already has a profile is a no-op. -/
theorem set_user_present {st : Contract} {signer : String} {u : AppUser}
    (n : String) (h : mget signer st.app_user = some u) :
    set_user signer n st = st := by
  simp [set_user, h]

/-- C6: a second set_user call for the same signer leaves the registry
exactly as after the first call (so its size is unchanged and the profile of
the first call is unmodified), and a first call for an unregistered signer
inserts the profile with id = the registry size at insertion. -/
theorem set_user_second_call_noop (st : Contract) (signer n1 n2 : String) :
    (set_user signer n2 (set_user signer n1 st)).app_user =
      (set_user signer n1 st).app_user ∧
    (mget signer st.app_user = none →
      mget signer (set_user signer n1 st).app_user =
        some ⟨st.app_user.length, signer, some n1⟩) := by
  cases hm : mget signer st.app_user with
  | some u =>
    have h1 : set_user signer n1 st = st := set_user_present n1 hm
    refine ⟨?_, fun hn => ?_⟩
    · rw [h1, set_user_present n2 hm]
    · cases hn
  | none =>
    have h1 : (set_user signer n1 st).app_user =
        minsert signer ⟨st.app_user.length, signer, some n1⟩ st.app_user := by
      simp [set_user, hm]
    have hget : mget signer (set_user signer n1 st).app_user =
        some ⟨st.app_user.length, signer, some n1⟩ := by
      rw [h1]
      exact mget_minsert_self signer _ st.app_user
    exact ⟨by rw [set_user_present n2 hget], fun _ => hget⟩

/-- C6 witness: registering "a" on the empty contract stores the profile
with id 0, identity "a" and the supplied display name. -/
theorem set_user_second_call_noop_witness :
    mget "a" (set_user "a" "Alice" (Contract.new "o")).app_user =
      some ⟨0, "a", some "Alice"⟩ :=
  (set_user_second_call_noop (Contract.new "o") "a" "Alice" "B").2 rfl

/-- C7: with granted consent, delete_data on an identity that has no stored
measurement leaves the measurement map unchanged (the call is total, so it
returns normally). -/
theorem delete_absent_noop (st : Contract) (uid : String)
    (h : mget uid st.data = none) :
    (delete_data uid ⟨some true⟩ st).data = st.data := by
  show mremove uid st.data = st.data
  exact mremove_absent uid st.data h

/-- C7 witness: deleting on the empty contract leaves the (empty) measurement
map unchanged. -/
theorem delete_absent_noop_witness :
    (delete_data "x" ⟨some true⟩ (Contract.new "o")).data = (Contract.new "o").data :=
  delete_absent_noop (Contract.new "o") "x" rfl

/-- C8 counterexample: delete_data deletes by its uid argument, not by the
caller identity. On the concrete state stC, where "alice" has a stored
measurement, a granted delete_data call with uid "bob" (made by any caller,
in particular by "alice": the signer is not read at all by delete_data)
leaves the measurement of "alice" in place. -/
theorem delete_data_ignores_caller :
    mget "alice" ((delete_data "bob" ⟨some true⟩ stC).data) =
      some ⟨"alice", F.fin 32⟩ := by
  rfl

/-- C8 amended: with granted consent, delete_data erases the measurement
stored under its uid argument, whoever the caller is, and leaves every other
entry unchanged; the caller's own measurement is erased exactly when the
caller passes their own identity as uid. -/
theorem delete_data_removes_uid (st : Contract) (uid : String) :
    mget uid ((delete_data uid ⟨some true⟩ st).data) = none ∧
    ∀ k, k ≠ uid → mget k ((delete_data uid ⟨some true⟩ st).data) = mget k st.data := by
  constructor
  · show mget uid (mremove uid st.data) = none
    exact mget_mremove_self uid st.data
  · intro k hk
    show mget k (mremove uid st.data) = mget k st.data
    exact mget_mremove_ne k uid st.data hk

/-- C8 amended witness: on stC, a granted delete_data with uid "alice"
erases the entry of "alice" and leaves the (absent) entry of "z" as it was. -/
theorem delete_data_removes_uid_witness :
    mget "alice" ((delete_data "alice" ⟨some true⟩ stC).data) = none ∧
    mget "z" ((delete_data "alice" ⟨some true⟩ stC).data) = mget "z" stC.data :=
  ⟨(delete_data_removes_uid stC "alice").1,
   (delete_data_removes_uid stC "alice").2 "z" (by decide)⟩

/-- C10: DataPermission::default() is Some(true), and both mutating entry
points behave under the default permission exactly as under explicit granted
consent: delete_data removes the uid entry, and compute on a signer with no
stored measurement inserts one. -/
theorem default_permission_is_granted :
    DataPermission.default = ⟨some true⟩ ∧
    (∀ (st : Contract) (uid : String),
      delete_data uid DataPermission.default st = delete_data uid ⟨some true⟩ st ∧
      mget uid ((delete_data uid DataPermission.default st).data) = none) ∧
    (∀ (st : Contract) (signer : String) (w : Nat) (h : ℚ),
      compute signer w h DataPermission.default st = compute signer w h ⟨some true⟩ st ∧
      (mget signer st.data = none →
        mget signer ((compute signer w h DataPermission.default st).2.2.data) =
          some ⟨signer, rawBMI w h⟩)) := by
  refine ⟨rfl, fun st uid => ⟨rfl, ?_⟩, fun st signer w h => ⟨rfl, fun hn => ?_⟩⟩
  · show mget uid (mremove uid st.data) = none
    exact mget_mremove_self uid st.data
  · have hdata : (compute signer w h DataPermission.default st).2.2.data =
        minsert signer ⟨signer, rawBMI w h⟩ st.data := by
      simp [compute, DataPermission.default, hn]
    rw [hdata]
    exact mget_minsert_self signer _ st.data

/-- C10 witness: a compute call with the default permission on the empty
contract stores the measurement of the signer. -/
theorem default_permission_is_granted_witness :
    mget "a" ((compute "a" 70 175 DataPermission.default (Contract.new "o")).2.2.data) =
      some ⟨"a", rawBMI 70 175⟩ :=
  (default_permission_is_granted.2.2 (Contract.new "o") "a" 70 175).2 rfl

/-- C4 amended witness: at the concrete positive input weight=70,
height=175 the raw bmi is exactly 70/(175/100)^2 and the returned value is
the saturated double truncation of it. -/
theorem compute_formula_witness :
    rawBMI 70 175 = F.fin ((70 : ℚ) / ((175 : ℚ) / 100) ^ 2) ∧
    (compute "w" 70 175 ⟨some true⟩ (Contract.new "o")).1 =
      i32sat (truncQ (((truncQ (((70 : ℚ) / ((175 : ℚ) / 100) ^ 2) * 100) : ℤ) : ℚ) / 100)) :=
  ⟨(compute_formula 70 175 (by norm_num) (by norm_num)).1,
   (compute_formula 70 175 (by norm_num) (by norm_num)).2 "w" ⟨some true⟩ (Contract.new "o")⟩

end NearBmi
